import Mathlib

/-
Verification of the HomeCatalog traverse-path package and model validators,
shallowly embedded from:
  homecatalog/traverse_path/by_path.py   (getattr_path, AttrPath)
  homecatalog/traverse_path/compare.py   (Operators)
  homecatalog/traverse_path/pydantic.py  (ClassBase, SearchBase)
  homecatalog/models.py                  (not_empty, is_not_future, YearPublished, Thing.name)

Python runtime values are modelled by the inductive `PyVal`; machine behaviour
that the code relies on (attribute lookup, `str.split`, the regex in
`SearchBase._split_lhs`, pydantic validation order) is translated into
executable Lean definitions.
-/

namespace HomeCatalog

/-- Python runtime values as used by the traverse-path package: `None`,
integers, strings, objects (a type name plus named attributes) and lists. -/
inductive PyVal where
  | none : PyVal
  | int : Int → PyVal
  | str : String → PyVal
  | obj : String → List (String × PyVal) → PyVal
  | list : List PyVal → PyVal

/-- Python `type(v).__name__` for the modelled values. -/
def typeName : PyVal → String
  | .none => "NoneType"
  | .int _ => "int"
  | .str _ => "str"
  | .obj t _ => t
  | .list _ => "list"

/-- Python exceptions raised by the embedded code.  `pathError` is the
`AttributeError` re-raised by `getattr_path`; it carries the two pieces of
information its message is built from: the root object type name and the
original full path string. -/
inductive PyErr where
  | attrMissing (objType attrName : String) : PyErr
  | pathError (rootType path : String) : PyErr
  | valueError (msg : String) : PyErr
  | keyError (key : String) : PyErr
  | typeError (msg : String) : PyErr
  | indexError : PyErr
  | stopIteration : PyErr
  | validationError (msg : String) : PyErr
deriving DecidableEq

/-! ### Python string primitives (`str.split`, `str.upper`, `str.lower`, …)

The separator in `by_path.py` and `AttrPath._separator` is always the fixed
two-character token `"__"`, so `str.split` is embedded for that separator,
leftmost-first and non-overlapping, exactly as Python splits. -/

/-- Python `s.split("__")` on the character list of `s`: `[]` (the empty
string) yields one empty part, and separators are consumed leftmost-first. -/
def splitDunder : List Char → List (List Char)
  | [] => [[]]
  | '_' :: '_' :: rest => [] :: splitDunder rest
  | c :: rest =>
    match splitDunder rest with
    | [] => [[c]]
    | p :: ps => (c :: p) :: ps

/-- Python `s.split("__")` returning strings. -/
def pySplitDunder (s : String) : List String :=
  (splitDunder s.data).map String.mk

/-- Python `"__".join(parts)`. -/
def joinDunder : List (List Char) → List Char
  | [] => []
  | [p] => p
  | p :: ps => p ++ '_' :: '_' :: joinDunder ps

/-- Python `"__".join(parts)` on strings. -/
def renderParts (parts : List String) : String :=
  String.mk (joinDunder (parts.map String.data))

/-- Python `s.upper()` (ASCII, which covers every operator token). -/
def strUpper (s : String) : String :=
  String.mk (s.data.map Char.toUpper)

/-- Python `s.lower()` (ASCII). -/
def strLower (s : String) : String :=
  String.mk (s.data.map Char.toLower)

/-- Whether `sub` occurs as a contiguous run inside `s` (Python `sub in s`
for strings). -/
def subOccurs (sub : List Char) : List Char → Bool
  | [] => sub.isEmpty
  | c :: rest => sub.isPrefixOf (c :: rest) || subOccurs sub rest

/-- Python lexicographic string comparison by code point. -/
def charListLt : List Char → List Char → Bool
  | [], [] => false
  | [], _ :: _ => true
  | _ :: _, [] => false
  | a :: as, b :: bs => if a == b then charListLt as bs else decide (a.toNat < b.toNat)

/-! ### Python equality (`==`) on the modelled values -/

mutual
/-- Python `==` on modelled values: structural over the value tree, `False`
across different types (Python returns `False` there, it does not raise). -/
def pyEq : PyVal → PyVal → Bool
  | .none, .none => true
  | .int a, .int b => a == b
  | .str a, .str b => a == b
  | .obj t as, .obj u bs => t == u && pyAttrsEq as bs
  | .list as, .list bs => pyListEq as bs
  | _, _ => false

/-- Fieldwise equality of attribute lists (pydantic model `==`). -/
def pyAttrsEq : List (String × PyVal) → List (String × PyVal) → Bool
  | [], [] => true
  | (k, v) :: as, (l, w) :: bs => k == l && pyEq v w && pyAttrsEq as bs
  | _, _ => false

/-- Elementwise equality of Python lists. -/
def pyListEq : List PyVal → List PyVal → Bool
  | [], [] => true
  | a :: as, b :: bs => pyEq a b && pyListEq as bs
  | _, _ => false
end

/-! ### `getattr` and `getattr_path` (by_path.py lines 89-116) -/

/-- Lookup of a named attribute in an attribute list. -/
def lookupAttr : List (String × PyVal) → String → Option PyVal
  | [], _ => Option.none
  | (k, v) :: rest, name => if k == name then some v else lookupAttr rest name

/-- Python `getattr(v, name)`: objects expose their attributes, every other
modelled value has no attributes, so lookup raises `AttributeError`. -/
def pyGetattr (v : PyVal) (name : String) : Except PyErr PyVal :=
  match v with
  | .obj t attrs =>
    match lookupAttr attrs name with
    | some x => .ok x
    | Option.none => .error (.attrMissing t name)
  | other => .error (.attrMissing (typeName other) name)

/-- The segment loop of `getattr_path`.  `rootType` and `pathRepr` are fixed
at entry (`type(obj).__name__` and the rendering of the original path) and
appear in the re-raised `AttributeError`.  `dflt` is `Option.none` when no
default was requested (the `MISSING` sentinel) and `some d` otherwise.  After
each successful fetch the loop returns `None` immediately when the fetched
value is `None`, before the next segment is touched. -/
def getattrWalk (rootType pathRepr : String) (dflt : Option PyVal) :
    PyVal → List String → Except PyErr PyVal
  | current, [] => .ok current
  | current, name :: rest =>
    match dflt with
    | Option.none =>
      match pyGetattr current name with
      | .error _ => .error (.pathError rootType pathRepr)
      | .ok v =>
        match v with
        | .none => .ok .none
        | v' => getattrWalk rootType pathRepr dflt v' rest
    | some d =>
      match pyGetattr current name with
      | .error _ => .ok d
      | .ok v =>
        match v with
        | .none => .ok .none
        | v' => getattrWalk rootType pathRepr dflt v' rest

/-- `getattr_path(obj, path, default)` for a string path: the empty string
returns the object itself, otherwise the path is split on `"__"` and walked. -/
def getattr_path (obj : PyVal) (path : String) (dflt : Option PyVal) :
    Except PyErr PyVal :=
  if path = "" then .ok obj
  else getattrWalk (typeName obj) path dflt obj (pySplitDunder path)

/-! ### AttrPath (by_path.py lines 134-176) -/

/-- `AttrPath`: the original path string together with the part deque built in
`__init__` by `value.split("__")`. -/
structure AttrPath where
  value : String
  parts : List String
deriving DecidableEq

/-- `AttrPath(value=s)`: the parts deque is `s.split("__")`, so the empty
string yields the single empty part `[""]`. -/
def AttrPath.ofString (s : String) : AttrPath :=
  ⟨s, pySplitDunder s⟩

/-- `AttrPath.render`: join the current parts with the separator. -/
def AttrPath.render (p : AttrPath) : String :=
  renderParts p.parts

/-- `AttrPath.depth`: the number of parts. -/
def AttrPath.depth (p : AttrPath) : Nat :=
  p.parts.length

/-- The `ClassBase.getattr_path` call made from `SearchBase._compare` with an
`AttrPath` argument and no default: the `path == ""` test compares an
`AttrPath` with a string and is always false, so the walk always runs over the
parts, and the error message renders the `AttrPath`. -/
def getattrPathAttr (obj : PyVal) (p : AttrPath) (dflt : Option PyVal) :
    Except PyErr PyVal :=
  getattrWalk (typeName obj) p.render dflt obj p.parts

/-! ### Operators (compare.py lines 269-302) -/

/-- The fourteen members of the `Operators` enum, in declaration order. -/
inductive Operators where
  | EQ | NE | GT | GE | LT | LE | IN
  | CONTAINS | ICONTAINS | STARTSWITH | ISTARTSWITH
  | ENDSWITH | IENDSWITH | IEQUAL
deriving DecidableEq

/-- The enum member table: canonical name to member, in declaration order. -/
def operatorTable : List (String × Operators) :=
  [("EQ", .EQ), ("NE", .NE), ("GT", .GT), ("GE", .GE), ("LT", .LT),
   ("LE", .LE), ("IN", .IN), ("CONTAINS", .CONTAINS),
   ("ICONTAINS", .ICONTAINS), ("STARTSWITH", .STARTSWITH),
   ("ISTARTSWITH", .ISTARTSWITH), ("ENDSWITH", .ENDSWITH),
   ("IENDSWITH", .IENDSWITH), ("IEQUAL", .IEQUAL)]

/-- `Operators[name]` (enum lookup by member name): the member whose name is
exactly `name`, otherwise `KeyError(name)`.  There is no alias table: only the
fourteen canonical names resolve. -/
def Operators.fromName (name : String) : Except PyErr Operators :=
  match operatorTable.find? (fun p => p.1 == name) with
  | some p => .ok p.2
  | Option.none => .error (.keyError name)

/-- Python `a < b` for the comparable pairs (two ints or two strings);
any other pairing raises `TypeError`. -/
def pyLt (value rhs : PyVal) : Except PyErr Bool :=
  match value, rhs with
  | .int a, .int b => .ok (decide (a < b))
  | .str a, .str b => .ok (charListLt a.data b.data)
  | a, b =>
    .error (.typeError ("not supported between instances of " ++
      typeName a ++ " and " ++ typeName b))

/-- Python `x in container`: list membership by `==`, substring test when both
are strings, `TypeError` otherwise. -/
def pyIn (x container : PyVal) : Except PyErr Bool :=
  match container with
  | .list items =>
    .ok (items.any (fun y => pyEq x y))
  | .str s =>
    match x with
    | .str xs => .ok (subOccurs xs.data s.data)
    | other => .error (.typeError ("in <string> requires string as left operand, not " ++ typeName other))
  | other => .error (.typeError ("argument of type " ++ typeName other ++ " is not iterable"))

/-- Python `s.lower()` behind an attribute check: non-strings have no `lower`
attribute. -/
def pyLower (v : PyVal) : Except PyErr String :=
  match v with
  | .str s => .ok (strLower s)
  | other => .error (.attrMissing (typeName other) "lower")

/-- `Operators.evaluate(value, rhs)`: calls the member function of compare.py
on the two values, with Python dynamic-typing failures surfaced as errors. -/
def Operators.evaluate (op : Operators) (value rhs : PyVal) : Except PyErr Bool :=
  match op with
  | .EQ => .ok (pyEq value rhs)
  | .NE => .ok (!(pyEq value rhs))
  | .GT => pyLt rhs value
  | .GE =>
    match pyLt value rhs with
    | .error e => .error e
    | .ok b => .ok (!b)
  | .LT => pyLt value rhs
  | .LE =>
    match pyLt rhs value with
    | .error e => .error e
    | .ok b => .ok (!b)
  | .IN => pyIn value rhs
  | .CONTAINS => pyIn rhs value
  | .ICONTAINS =>
    match pyLower rhs with
    | .error e => .error e
    | .ok r =>
      match pyLower value with
      | .error e => .error e
      | .ok v => .ok (subOccurs r.data v.data)
  | .STARTSWITH =>
    match value with
    | .str v =>
      match rhs with
      | .str r => .ok (r.data.isPrefixOf v.data)
      | other => .error (.typeError ("startswith first arg must be str, not " ++ typeName other))
    | other => .error (.attrMissing (typeName other) "startswith")
  | .ISTARTSWITH =>
    match pyLower value with
    | .error e => .error e
    | .ok v =>
      match pyLower rhs with
      | .error e => .error e
      | .ok r => .ok (r.data.isPrefixOf v.data)
  | .ENDSWITH =>
    match value with
    | .str v =>
      match rhs with
      | .str r => .ok (r.data.isSuffixOf v.data)
      | other => .error (.typeError ("endswith first arg must be str, not " ++ typeName other))
    | other => .error (.attrMissing (typeName other) "endswith")
  | .IENDSWITH =>
    match pyLower value with
    | .error e => .error e
    | .ok v =>
      match pyLower rhs with
      | .error e => .error e
      | .ok r => .ok (r.data.isSuffixOf v.data)
  | .IEQUAL =>
    match pyLower value with
    | .error e => .error e
    | .ok v =>
      match pyLower rhs with
      | .error e => .error e
      | .ok r => .ok (v == r)

/-! ### SearchBase predicate decoding (pydantic.py lines 53-118)

`SearchBase._split_lhs` matches the key against the regular expression
`^(\w+)_([^_]+)$`.  Because the second group excludes underscores and the
match is anchored, the only viable split point is the last underscore of the
key: group 1 is everything before it (which must be non-empty word
characters) and group 2 is everything after it (which must be non-empty). -/

/-- Word character as in the regex class `\w` (the keys are Python
identifiers, so the ASCII reading is exact here). -/
def isWordChar (c : Char) : Bool :=
  c.isAlphanum || c == '_'

/-- Split a character list at its last underscore: `some (pre, suf)` with
`pre` the characters before the last `'_'` and `suf` those after it, or
`Option.none` when no underscore occurs. -/
def splitAtLastUs : List Char → Option (List Char × List Char)
  | [] => Option.none
  | c :: rest =>
    match splitAtLastUs rest with
    | some (pre, suf) => some (c :: pre, suf)
    | Option.none => if c = '_' then some ([], rest) else Option.none

/-- The anchored regex `^(\w+)_([^_]+)$` of `_split_lhs`: the two captured
groups, or `Option.none` when the key does not match. -/
def regexSplitLhs (s : String) : Option (String × String) :=
  match splitAtLastUs s.data with
  | some (pre, suf) =>
    if !pre.isEmpty && pre.all isWordChar && !suf.isEmpty then
      some (String.mk pre, String.mk suf)
    else Option.none
  | Option.none => Option.none

/-- `SearchBase._split_lhs`: regex-match the key (raising `ValueError` on a
non-match), build an `AttrPath` from group 1, uppercase group 2 and look it up
as an `Operators` member name. -/
def splitLhs (lhs : String) : Except PyErr (AttrPath × Operators) :=
  match regexSplitLhs lhs with
  | Option.none => .error (.valueError ("invalid path: " ++ lhs))
  | some (pathStr, opTok) =>
    match Operators.fromName (strUpper opTok) with
    | .error e => .error e
    | .ok op => .ok (AttrPath.ofString pathStr, op)

/-- `SearchBase._split_kwarg`: more than one keyword raises `ValueError`, no
keyword makes `next(iter(...))` raise `StopIteration`, one keyword is
returned. -/
def splitKwarg (kwargs : List (String × PyVal)) : Except PyErr (String × PyVal) :=
  if kwargs.length > 1 then
    .error (.valueError "only one kwarg is allowed beyond default")
  else
    match kwargs with
    | [] => .error .stopIteration
    | kv :: _ => .ok kv

/-- `SearchBase._get_compare_tuple`: decode the keyword dictionary into the
path, the operator and the right-hand value. -/
def decodePredicate (kwargs : List (String × PyVal)) :
    Except PyErr (AttrPath × Operators × PyVal) :=
  match splitKwarg kwargs with
  | .error e => .error e
  | .ok (lhs, rhs) =>
    match splitLhs lhs with
    | .error e => .error e
    | .ok (path, op) => .ok (path, op, rhs)

/-- `SearchBase`: the wrapper around the root list of elements. -/
structure SearchBase where
  root : List PyVal

/-- `SearchBase._compare`: resolve the path on the element with the raising
variant (no default), then evaluate the operator against the right-hand
value. -/
def sbCompare (item : PyVal) (lhs : AttrPath) (rhs : PyVal) (op : Operators) :
    Except PyErr Bool :=
  match getattrPathAttr item lhs Option.none with
  | .error e => .error e
  | .ok value => op.evaluate value rhs

/-- The list comprehension shared by `filter` (`keep = true`) and `exclude`
(`keep = false`): test every element left to right, stopping at the first
raised error, and keep the elements whose comparison equals `keep`. -/
def compareAll (path : AttrPath) (rhs : PyVal) (op : Operators) (keep : Bool) :
    List PyVal → Except PyErr (List PyVal)
  | [] => .ok []
  | x :: xs =>
    match sbCompare x path rhs op with
    | .error e => .error e
    | .ok b =>
      match compareAll path rhs op keep xs with
      | .error e => .error e
      | .ok rest => .ok (if b = keep then x :: rest else rest)

/-- `SearchBase.filter(**kwargs)`: decode the predicate, evaluate the list
comprehension over the current root, and only then assign the new root and
return `self`.  The returned pair is (return value, object state after the
call); when an exception is raised the comprehension result is never
assigned, so the state after the call is the state before it. -/
def SearchBase.filterCall (s : SearchBase) (kwargs : List (String × PyVal)) :
    Except PyErr SearchBase × SearchBase :=
  match decodePredicate kwargs with
  | .error e => (.error e, s)
  | .ok (path, op, rhs) =>
    match compareAll path rhs op true s.root with
    | .error e => (.error e, s)
    | .ok newRoot => (.ok ⟨newRoot⟩, ⟨newRoot⟩)

/-- `SearchBase.exclude(**kwargs)`: as `filter` but keeping the elements whose
comparison is false. -/
def SearchBase.excludeCall (s : SearchBase) (kwargs : List (String × PyVal)) :
    Except PyErr SearchBase × SearchBase :=
  match decodePredicate kwargs with
  | .error e => (.error e, s)
  | .ok (path, op, rhs) =>
    match compareAll path rhs op false s.root with
    | .error e => (.error e, s)
    | .ok newRoot => (.ok ⟨newRoot⟩, ⟨newRoot⟩)

/-- `SearchBase.get(default=dflt, **kwargs)`: run `self.filter(**kwargs)` (on
the collection itself), then return the single element of the filtered result
when its length is exactly one and the default otherwise.  The pair is
(return value, object state after the call). -/
def SearchBase.get (s : SearchBase) (dflt : PyVal)
    (kwargs : List (String × PyVal)) : Except PyErr PyVal × SearchBase :=
  match s.filterCall kwargs with
  | (.error e, s2) => (.error e, s2)
  | (.ok itemsList, s2) =>
    if itemsList.root.length = 1 then
      (.ok (itemsList.root.headD PyVal.none), s2)
    else
      (.ok dflt, s2)

/-! ### models.py: validators of `Thing.name` and `YearPublished`

Raw input to a model is the nested structure produced by `xmltodict.parse`:
dictionaries, lists, strings, and (after pydantic coercion) integers. -/

/-- Raw deserialized values supplied to a pydantic model. -/
inductive Raw where
  | none : Raw
  | int : Int → Raw
  | str : String → Raw
  | dict : List (String × Raw) → Raw
  | list : List Raw → Raw

/-- Key lookup in a raw dictionary. -/
def lookupRaw : List (String × Raw) → String → Option Raw
  | [], _ => Option.none
  | (k, v) :: rest, name => if k == name then some v else lookupRaw rest name

/-- The `NameType` string enum of models.py. -/
inductive NameType where
  | primary
  | alternate
deriving DecidableEq

/-- Case-sensitive resolution of a `NameType` value, as pydantic validates a
string enum. -/
def NameType.parse (s : String) : Except PyErr NameType :=
  if s == "primary" then .ok .primary
  else if s == "alternate" then .ok .alternate
  else .error (.validationError "Input should be primary or alternate")

/-- The validated `ThingName` record: `name_type` (populated from the
explicit field alias `@type`) and `value`. -/
structure ThingName where
  name_type : NameType
  value : String
deriving DecidableEq

/-- Pydantic validation of one `ThingName` from a raw value: the input must
be a dictionary; `name_type` is read from the explicit alias `@type`;
`value` is read through the generated alias choices `value` then `@value`. -/
def validateThingName (raw : Raw) : Except PyErr ThingName :=
  match raw with
  | .dict fields =>
    match lookupRaw fields "@type" with
    | some (.str t) =>
      match NameType.parse t with
      | .error e => .error e
      | .ok nt =>
        match (match lookupRaw fields "value" with
               | some v => some v
               | Option.none => lookupRaw fields "@value") with
        | some (.str v) => .ok ⟨nt, v⟩
        | some _ => .error (.validationError "Input should be a valid string")
        | Option.none => .error (.validationError "Field required: value")
    | some _ => .error (.validationError "Input should be a valid string")
    | Option.none => .error (.validationError "Field required: type")
  | _ => .error (.validationError "Input should be a valid dictionary")

/-- `not_empty` of models.py: raise `ValueError` when the collection has
length zero, otherwise return it unchanged. -/
def not_empty {α : Type} (value : List α) : Except PyErr (List α) :=
  if value.length = 0 then .error (.valueError "value is empty")
  else .ok value

/-- Element-by-element pydantic validation of a `list[ThingName]` input. -/
def validateNameItems : List Raw → Except PyErr (List ThingName)
  | [] => .ok []
  | r :: rs =>
    match validateThingName r with
    | .error e => .error e
    | .ok n =>
      match validateNameItems rs with
      | .error e => .error e
      | .ok ns => .ok (n :: ns)

/-- Validation of the `Thing.name` field, declared
`Annotated[list[ThingName], AfterValidator(not_empty)]`: pydantic core
validation first requires the input to be a list (there is no
`coerce_to_list` before-validator on this field, so a bare dictionary is
rejected), validates each element, and only then runs `not_empty`. -/
def validateNameField (raw : Raw) : Except PyErr (List ThingName) :=
  match raw with
  | .list items =>
    match validateNameItems items with
    | .error e => .error e
    | .ok ns => not_empty ns
  | _ => .error (.validationError "Input should be a valid list")

/-- `is_not_future` of models.py: `if value and value > dt.now(tz=UTC).year`
raises `ValueError`; the current year is passed explicitly.  Python
truthiness makes both `None` and `0` skip the check.  The function body has
no `return`, so it returns `None` — which, as the field after-validator,
becomes the stored value. -/
def is_not_future (currentYear : Int) (value : Option Int) :
    Except PyErr (Option Int) :=
  match value with
  | Option.none => .ok Option.none
  | some v =>
    if v ≠ 0 ∧ currentYear < v then .error (.valueError "value is in the future")
    else .ok Option.none

/-- Parse an optionally signed decimal integer from characters (the pydantic
lax coercion of a digit string to `int`). -/
def natOfDigits : Nat → List Char → Option Nat
  | acc, [] => some acc
  | acc, c :: cs =>
    if c.isDigit then natOfDigits (acc * 10 + (c.toNat - 48)) cs
    else Option.none

/-- Pydantic lax `int` parsing of a string: digits with an optional leading
minus sign. -/
def intOfString (s : String) : Option Int :=
  match s.data with
  | [] => Option.none
  | '-' :: rest =>
    match rest with
    | [] => Option.none
    | _ => (natOfDigits 0 rest).map (fun n => -(n : Int))
  | l => (natOfDigits 0 l).map (fun n => (n : Int))

/-- Validation of the `YearPublished.value` field, declared
`Annotated[int, AfterValidator(is_not_future)]`: core validation accepts an
integer (or a digit string, coerced) and rejects `None` and everything else
— the declared type is `int`, not `int | None`, so a null never reaches
`is_not_future`.  The after-validator then runs and its return value (always
`None`) replaces the validated integer. -/
def validateYearValue (currentYear : Int) (raw : Raw) :
    Except PyErr (Option Int) :=
  match raw with
  | .int v => is_not_future currentYear (some v)
  | .str s =>
    match intOfString s with
    | some v => is_not_future currentYear (some v)
    | Option.none => .error (.validationError "Input should be a valid integer")
  | _ => .error (.validationError "Input should be a valid integer")

/-- The `YearPublished` wrapper after validation.  The field is declared
`int` in the source, but the stored value is whatever the after-validator
returned, hence the `Option Int` here. -/
structure YearPublished where
  value : Option Int
deriving DecidableEq

/-- Construction of a `YearPublished` from a raw value at a given current
calendar year. -/
def YearPublished.construct (currentYear : Int) (raw : Raw) :
    Except PyErr YearPublished :=
  match validateYearValue currentYear raw with
  | .error e => .error e
  | .ok v => .ok ⟨v⟩

/-! ## Supporting lemmas -/

/-- `validateYearValue` can only succeed with the value `Option.none`,
because the only successful paths go through `is_not_future`, whose body has
no `return`. -/
theorem validateYearValue_ok_none (y : Int) (raw : Raw) (v : Option Int)
    (h : validateYearValue y raw = .ok v) : v = Option.none := by
  cases raw with
  | int i =>
    simp only [validateYearValue, is_not_future] at h
    split at h
    · exact absurd h (by simp)
    · exact (Except.ok.inj h).symm
  | str s =>
    simp only [validateYearValue] at h
    cases hi : intOfString s with
    | none => rw [hi] at h; exact absurd h (by simp)
    | some i =>
      rw [hi] at h
      simp only [is_not_future] at h
      split at h
      · exact absurd h (by simp)
      · exact (Except.ok.inj h).symm
  | none => exact absurd h (by simp [validateYearValue])
  | dict d => exact absurd h (by simp [validateYearValue])
  | list l => exact absurd h (by simp [validateYearValue])

/-- A character list without underscores has no last-underscore split. -/
theorem splitAtLastUs_of_not_mem (l : List Char) (h : '_' ∉ l) :
    splitAtLastUs l = Option.none := by
  induction l with
  | nil => rfl
  | cons c rest ih =>
    simp only [splitAtLastUs]
    rw [ih (fun hm => h (List.mem_cons_of_mem c hm))]
    have hc : ¬(c = '_') := fun hc => h (by rw [hc]; exact List.mem_cons_self _ _)
    simp [hc]

/-- When the suffix holds no underscore, the last underscore of
`pre ++ '_' :: suf` is the explicit one, so the split returns `(pre, suf)`. -/
theorem splitAtLastUs_append (pre suf : List Char) (h : '_' ∉ suf) :
    splitAtLastUs (pre ++ '_' :: suf) = some (pre, suf) := by
  induction pre with
  | nil =>
    simp only [List.nil_append, splitAtLastUs]
    rw [splitAtLastUs_of_not_mem suf h]
    simp
  | cons c cs ih =>
    simp only [List.cons_append, splitAtLastUs]
    rw [List.append_eq, ih]

/-- Enum lookup fails with `KeyError` on every name that is not one of the
fourteen member names. -/
theorem fromName_of_not_mem (tok : String) (h : tok ∉ operatorTable.map Prod.fst) :
    Operators.fromName tok = .error (.keyError tok) := by
  have hf : operatorTable.find? (fun p => p.1 == tok) = Option.none := by
    apply List.find?_eq_none.mpr
    intro x hx
    simp only [beq_iff_eq]
    intro heq
    exact h (List.mem_map.mpr ⟨x, hx, heq⟩)
  simp [Operators.fromName, hf]

/-- Every error produced by the no-default walk is the re-raised
`AttributeError` carrying the root type name and the original path. -/
theorem getattrWalk_error_shape (rt repr : String) :
    ∀ (parts : List String) (cur : PyVal) (e : PyErr),
      getattrWalk rt repr Option.none cur parts = .error e →
      e = .pathError rt repr := by
  intro parts
  induction parts with
  | nil => intro cur e h; exact absurd h (by simp [getattrWalk])
  | cons name rest ih =>
    intro cur e h
    simp only [getattrWalk] at h
    cases hg : pyGetattr cur name with
    | error e2 =>
      rw [hg] at h
      dsimp only at h
      exact (Except.error.inj h).symm
    | ok v =>
      rw [hg] at h
      dsimp only at h
      cases v with
      | none => exact absurd h (by simp)
      | int i => exact ih _ _ h
      | str s => exact ih _ _ h
      | obj t attrs => exact ih _ _ h
      | list l => exact ih _ _ h

/-- The walk with a requested default never raises. -/
theorem getattrWalk_default_total (rt repr : String) (d : PyVal) :
    ∀ (parts : List String) (cur : PyVal),
      ∃ v, getattrWalk rt repr (some d) cur parts = .ok v := by
  intro parts
  induction parts with
  | nil => intro cur; exact ⟨cur, rfl⟩
  | cons name rest ih =>
    intro cur
    simp only [getattrWalk]
    cases hg : pyGetattr cur name with
    | error e => exact ⟨d, rfl⟩
    | ok v =>
      cases v with
      | none => exact ⟨.none, rfl⟩
      | int i => exact ih _
      | str s => exact ih _
      | obj t attrs => exact ih _
      | list l => exact ih _

/-- Decoding a single-keyword dictionary comes down to `_split_lhs` on the
key. -/
theorem decodePredicate_single (key : String) (rhs : PyVal) :
    decodePredicate [(key, rhs)] =
      match splitLhs key with
      | .error e => .error e
      | .ok (path, op) => .ok (path, op, rhs) := rfl

/-- When every element of the list compares without raising, the filter
comprehension succeeds. -/
theorem compareAll_ok_of_all (path : AttrPath) (rhs : PyVal) (op : Operators) :
    ∀ l : List PyVal, (∀ x ∈ l, ∃ b, sbCompare x path rhs op = .ok b) →
      ∃ kept, compareAll path rhs op true l = .ok kept := by
  intro l
  induction l with
  | nil => intro _; exact ⟨[], rfl⟩
  | cons x xs ih =>
    intro h
    obtain ⟨b, hb⟩ := h x (List.mem_cons_self x xs)
    obtain ⟨kept, hk⟩ := ih (fun y hy => h y (List.mem_cons_of_mem x hy))
    refine ⟨if b = true then x :: kept else kept, ?_⟩
    simp only [compareAll, hb, hk]

/-- Every element kept by the filter comprehension compared to `true`. -/
theorem compareAll_kept_true (path : AttrPath) (rhs : PyVal) (op : Operators) :
    ∀ (l kept : List PyVal), compareAll path rhs op true l = .ok kept →
      ∀ x ∈ kept, sbCompare x path rhs op = .ok true := by
  intro l
  induction l with
  | nil =>
    intro kept h x hx
    simp only [compareAll] at h
    rw [← Except.ok.inj h] at hx
    exact absurd hx (List.not_mem_nil x)
  | cons y ys ih =>
    intro kept h x hx
    simp only [compareAll] at h
    cases hc : sbCompare y path rhs op with
    | error e => rw [hc] at h; exact absurd h (by simp)
    | ok b =>
      rw [hc] at h
      dsimp only at h
      cases hr : compareAll path rhs op true ys with
      | error e => rw [hr] at h; exact absurd h (by simp)
      | ok rest =>
        rw [hr] at h
        dsimp only at h
        have hkept := Except.ok.inj h
        cases b with
        | true =>
          simp only [if_pos] at hkept
          rw [← hkept] at hx
          rcases List.mem_cons.mp hx with rfl | hx2
          · exact hc
          · exact ih rest hr x hx2
        | false =>
          simp at hkept
          rw [← hkept] at hx
          exact ih rest hr x hx

/-- The exclude comprehension drops every element whose comparison is
`true`, so it empties a list of all-true elements. -/
theorem compareAll_exclude_nil (path : AttrPath) (rhs : PyVal) (op : Operators) :
    ∀ l : List PyVal, (∀ x ∈ l, sbCompare x path rhs op = .ok true) →
      compareAll path rhs op false l = .ok [] := by
  intro l
  induction l with
  | nil => intro _; rfl
  | cons x xs ih =>
    intro h
    have hx := h x (List.mem_cons_self x xs)
    have hr := ih (fun y hy => h y (List.mem_cons_of_mem x hy))
    simp [compareAll, hx, hr]

/-! ## Claims -/

/-- Claim C2 counterexample: the claim states that `get(default=None, **kw)`
leaves the wrapped element list unchanged.  On a two-element collection where
the predicate `name_eq` matches exactly one element, the state after the call
holds one element while the collection held two before it, so an element was
removed by `get`. -/
theorem C2_counterexample :
    (SearchBase.get
        ⟨[PyVal.obj "Poll" [("name", PyVal.str "a")],
          PyVal.obj "Poll" [("name", PyVal.str "b")]]⟩
        PyVal.none [("name_eq", PyVal.str "a")]).2.root.length = 1 ∧
    (⟨[PyVal.obj "Poll" [("name", PyVal.str "a")],
       PyVal.obj "Poll" [("name", PyVal.str "b")]]⟩ : SearchBase).root.length = 2 :=
  ⟨rfl, rfl⟩

/-- Claim C2 (amended): `get` runs `filter` on the collection itself, not on
a copy: the state of the collection after any `get` call is exactly the state
after the corresponding `filter` call, so a successful `get` replaces the
wrapped list with the matching subset. -/
theorem C2_get_mutates_like_filter :
    ∀ (s : SearchBase) (dflt : PyVal) (kwargs : List (String × PyVal)),
      (SearchBase.get s dflt kwargs).2 = (s.filterCall kwargs).2 := by
  intro s dflt kwargs
  simp only [SearchBase.get]
  rcases h : s.filterCall kwargs with ⟨r, s2⟩
  cases r
  · rfl
  · dsimp only
    split <;> rfl

/-- Claim C3 counterexample: the claim states that supplying the mandatory
name field as a single bare object succeeds with a one-element list.  The
bare object below is itself a valid `ThingName`, yet the field validation of
`Thing.name` rejects it with a list-type error, because no list coercion is
applied to that field. -/
theorem C3_counterexample :
    validateNameField (.dict [("@type", .str "primary"), ("value", .str "Spider Bunny")]) =
      .error (.validationError "Input should be a valid list") ∧
    validateThingName (.dict [("@type", .str "primary"), ("value", .str "Spider Bunny")]) =
      .ok ⟨NameType.primary, "Spider Bunny"⟩ :=
  ⟨rfl, rfl⟩

/-- Claim C3 (amended): constructing the name field from an empty list always
fails (`not_empty` raises); a single bare object always fails with a
list-type validation error, since `coerce_to_list` is not applied to
`Thing.name`; the same object wrapped in a singleton list succeeds and yields
the one-element name list. -/
theorem C3_name_field_validation :
    validateNameField (.list []) = .error (.valueError "value is empty") ∧
    (∀ d : List (String × Raw),
      validateNameField (.dict d) = .error (.validationError "Input should be a valid list")) ∧
    (∀ (raw : Raw) (n : ThingName), validateThingName raw = .ok n →
      validateNameField (.list [raw]) = .ok [n]) := by
  refine ⟨rfl, fun d => rfl, ?_⟩
  intro raw n h
  simp [validateNameField, validateNameItems, h, not_empty]

/-- Claim C3 witness. -/
theorem C3_witness :
    validateThingName (.dict [("@type", .str "alternate"), ("value", .str "Bunny")]) =
      .ok ⟨NameType.alternate, "Bunny"⟩ ∧
    validateNameField (.list [.dict [("@type", .str "alternate"), ("value", .str "Bunny")]]) =
      .ok [⟨NameType.alternate, "Bunny"⟩] :=
  ⟨rfl, C3_name_field_validation.2.2 _ _ rfl⟩

/-- Claim C4 counterexample: the claim states that constructing
`YearPublished` with a null value succeeds unconditionally.  It fails: the
field is declared `int`, so core validation rejects `None` before
`is_not_future` (whose null-skip is therefore unreachable here) ever runs. -/
theorem C4_counterexample :
    YearPublished.construct 2025 Raw.none =
      .error (.validationError "Input should be a valid integer") :=
  rfl

/-- Claim C4 (amended): at any non-negative current year, constructing the
publication-year wrapper with the next year fails with a validation error,
with the current year itself succeeds, and with a null value fails (not
succeeds), because the declared field type `int` rejects `None` during core
validation. -/
theorem C4_year_published_validation :
    ∀ y : Int, 0 ≤ y →
      YearPublished.construct y (.int (y + 1)) = .error (.valueError "value is in the future") ∧
      YearPublished.construct y (.int y) = .ok ⟨Option.none⟩ ∧
      YearPublished.construct y Raw.none =
        .error (.validationError "Input should be a valid integer") := by
  intro y hy
  refine ⟨?_, ?_, rfl⟩
  · simp only [YearPublished.construct, validateYearValue, is_not_future]
    rw [if_pos ⟨by omega, by omega⟩]
  · simp only [YearPublished.construct, validateYearValue, is_not_future]
    rw [if_neg (fun hc => absurd hc.2 (by omega))]

/-- Claim C4 witness. -/
theorem C4_witness :
    (0 : Int) ≤ 2025 ∧
    (YearPublished.construct 2025 (.int 2026) = .error (.valueError "value is in the future") ∧
     YearPublished.construct 2025 (.int 2025) = .ok ⟨Option.none⟩ ∧
     YearPublished.construct 2025 Raw.none =
       .error (.validationError "Input should be a valid integer")) :=
  ⟨by decide, C4_year_published_validation 2025 (by decide)⟩

/-- Claim C5: every successfully constructed `YearPublished` stores
`value = None` rather than the supplied integer, because the return value of
the after-validator `is_not_future` (which returns nothing) replaces the
validated value. -/
theorem C5_year_value_replaced_by_none :
    ∀ (y : Int) (raw : Raw) (yp : YearPublished),
      YearPublished.construct y raw = .ok yp → yp.value = Option.none := by
  intro y raw yp h
  simp only [YearPublished.construct] at h
  cases hv : validateYearValue y raw with
  | error e => rw [hv] at h; exact absurd h (by simp)
  | ok v =>
    rw [hv] at h
    have hyp : (⟨v⟩ : YearPublished) = yp := Except.ok.inj h
    rw [← hyp]
    exact validateYearValue_ok_none y raw v hv

/-- Claim C5 witness. -/
theorem C5_witness :
    YearPublished.construct 2025 (.int 1995) = .ok ⟨Option.none⟩ ∧
    (⟨Option.none⟩ : YearPublished).value = Option.none :=
  ⟨rfl, C5_year_value_replaced_by_none 2025 (.int 1995) ⟨Option.none⟩ rfl⟩

/-- Claim C10: when a `filter` or `exclude` call raises — malformed key,
unknown operator suffix, or an attribute error while resolving the path on
some element — the collection state after the call equals the state before
it: the new root list is assigned only after the whole comprehension has been
evaluated. -/
theorem C10_failed_call_leaves_root_unchanged :
    ∀ (s : SearchBase) (kwargs : List (String × PyVal)) (e : PyErr),
      ((s.filterCall kwargs).1 = .error e → (s.filterCall kwargs).2 = s) ∧
      ((s.excludeCall kwargs).1 = .error e → (s.excludeCall kwargs).2 = s) := by
  intro s kwargs e
  constructor
  · intro h
    simp only [SearchBase.filterCall] at h ⊢
    split
    · rfl
    · rename_i path op rhs heq
      rw [heq] at h
      dsimp only at h
      split
      · rfl
      · rename_i newRoot hc
        rw [hc] at h
        exact absurd h (by simp)
  · intro h
    simp only [SearchBase.excludeCall] at h ⊢
    split
    · rfl
    · rename_i path op rhs heq
      rw [heq] at h
      dsimp only at h
      split
      · rfl
      · rename_i newRoot hc
        rw [hc] at h
        exact absurd h (by simp)

/-- Claim C10 witness: a key with no underscore fails the regex, and the
state after the failed call is the state before it. -/
theorem C10_witness :
    (SearchBase.filterCall ⟨[PyVal.int 1]⟩ [("nounderscore", PyVal.int 1)]).1 =
      .error (.valueError "invalid path: nounderscore") ∧
    (SearchBase.filterCall ⟨[PyVal.int 1]⟩ [("nounderscore", PyVal.int 1)]).2 =
      ⟨[PyVal.int 1]⟩ :=
  ⟨rfl,
   (C10_failed_call_leaves_root_unchanged ⟨[PyVal.int 1]⟩
     [("nounderscore", PyVal.int 1)]
     (.valueError "invalid path: nounderscore")).1 rfl⟩

/-- Claim C1 counterexample: the claim states that the suffix `iexact` maps
onto the registry operator IEQUAL.  It does not: `Operators[...]` is a plain
enum-name lookup with no alias table, so a `filter` call whose key ends in
`_iexact` fails with `KeyError("IEXACT")` instead of decoding to IEQUAL. -/
theorem C1_counterexample :
    (SearchBase.filterCall ⟨[]⟩ [("name__value_iexact", PyVal.str "x")]).1 =
      .error (.keyError "IEXACT") :=
  rfl

/-- Claim C1 (amended): a predicate key of the shape `<path>_<suffix>` (path
non-empty word characters, suffix non-empty and underscore-free) is decoded
by taking everything up to the last underscore as the attribute path and the
uppercased trailing token as the operator name; `name__value` parses into the
segments `name`, `value`; the canonical suffix `iequal` resolves to IEQUAL,
while `iexact` is not a registered name or alias and fails with `KeyError`,
as does every token outside the fourteen canonical operator names. -/
theorem C1_predicate_key_decoding :
    (∀ (pre suf : List Char), pre ≠ [] → pre.all isWordChar → suf ≠ [] → '_' ∉ suf →
      splitLhs (String.mk (pre ++ '_' :: suf)) =
        (match Operators.fromName (strUpper (String.mk suf)) with
         | .error e => .error e
         | .ok op => .ok (AttrPath.ofString (String.mk pre), op))) ∧
    (AttrPath.ofString "name__value").parts = ["name", "value"] ∧
    splitLhs "name__value_iequal" = .ok (AttrPath.ofString "name__value", Operators.IEQUAL) ∧
    splitLhs "name__value_iexact" = .error (PyErr.keyError "IEXACT") ∧
    (∀ tok : String, tok ∉ operatorTable.map Prod.fst →
      Operators.fromName tok = .error (.keyError tok)) := by
  refine ⟨?_, rfl, rfl, rfl, fromName_of_not_mem⟩
  intro pre suf h1 h2 h3 h4
  simp only [splitLhs, regexSplitLhs]
  rw [splitAtLastUs_append pre suf h4]
  have hp : pre.isEmpty = false := by cases pre with
    | nil => exact absurd rfl h1
    | cons c cs => rfl
  have hs : suf.isEmpty = false := by cases suf with
    | nil => exact absurd rfl h3
    | cons c cs => rfl
  simp [hp, hs, h2]

/-- Claim C1 witness. -/
theorem C1_witness :
    splitLhs (String.mk ("name".data ++ '_' :: "eq".data)) =
      .ok (AttrPath.ofString "name", Operators.EQ) ∧
    Operators.fromName "FOO" = .error (PyErr.keyError "FOO") :=
  ⟨C1_predicate_key_decoding.1 "name".data "eq".data (by decide) (by decide)
     (by decide) (by decide),
   C1_predicate_key_decoding.2.2.2.2 "FOO" (by decide)⟩

/-- Claim C6: `getattr_path` resolves the empty-string path to the root
object itself; when a fetched value is null the walk returns null at once,
whatever default mode is active and whatever segments remain; a missing
attribute raises, in no-default mode, an `AttributeError` carrying the root
type name and the original full path (and every error of the no-default walk
has that shape), while in default mode the walk returns the default at once
and in fact never raises at all. -/
theorem C6_getattr_path_semantics :
    (∀ (obj : PyVal) (dflt : Option PyVal), getattr_path obj "" dflt = .ok obj) ∧
    (∀ (rt repr : String) (dflt : Option PyVal) (cur : PyVal) (name : String)
       (rest : List String),
      pyGetattr cur name = .ok PyVal.none →
      getattrWalk rt repr dflt cur (name :: rest) = .ok PyVal.none) ∧
    (∀ (rt repr : String) (cur : PyVal) (name : String) (rest : List String)
       (e : PyErr),
      pyGetattr cur name = .error e →
      getattrWalk rt repr Option.none cur (name :: rest) =
        .error (.pathError rt repr)) ∧
    (∀ (rt repr : String) (d cur : PyVal) (name : String) (rest : List String)
       (e : PyErr),
      pyGetattr cur name = .error e →
      getattrWalk rt repr (some d) cur (name :: rest) = .ok d) ∧
    (∀ (obj : PyVal) (path : String) (e : PyErr),
      getattr_path obj path Option.none = .error e →
      e = .pathError (typeName obj) path) ∧
    (∀ (obj : PyVal) (path : String) (d : PyVal),
      ∃ v, getattr_path obj path (some d) = .ok v) := by
  refine ⟨?_, ?_, ?_, ?_, ?_, ?_⟩
  · intro obj dflt
    simp [getattr_path]
  · intro rt repr dflt cur name rest h
    cases dflt <;> simp [getattrWalk, h]
  · intro rt repr cur name rest e h
    simp [getattrWalk, h]
  · intro rt repr d cur name rest e h
    simp [getattrWalk, h]
  · intro obj path e h
    by_cases hp : path = ""
    · rw [hp] at h
      exact absurd h (by simp [getattr_path])
    · simp only [getattr_path, if_neg hp] at h
      exact getattrWalk_error_shape _ _ _ _ _ h
  · intro obj path d
    by_cases hp : path = ""
    · exact ⟨obj, by simp [getattr_path, hp]⟩
    · simp only [getattr_path, if_neg hp]
      exact getattrWalk_default_total _ _ _ _ _

/-- Claim C6 witness: a missing attribute on the first segment raises the
wrapped error naming the root type and the path, and a null fetched on the
first of two segments short-circuits the walk to null. -/
theorem C6_witness :
    pyGetattr (PyVal.obj "Thing" []) "b" = .error (PyErr.attrMissing "Thing" "b") ∧
    getattrWalk "Thing" "b" Option.none (PyVal.obj "Thing" []) ["b"] =
      .error (PyErr.pathError "Thing" "b") ∧
    getattrWalk "Thing" "a__b" Option.none (PyVal.obj "Thing" [("a", PyVal.none)])
      ["a", "b"] = .ok PyVal.none :=
  ⟨rfl,
   C6_getattr_path_semantics.2.2.1 "Thing" "b" (PyVal.obj "Thing" []) "b" []
     (PyErr.attrMissing "Thing" "b") rfl,
   C6_getattr_path_semantics.2.1 "Thing" "a__b" Option.none
     (PyVal.obj "Thing" [("a", PyVal.none)]) "a" ["b"] rfl⟩

/-- Claim C7: when the predicate decodes and the filter comprehension
evaluates on the collection, `get` returns the unique matching element when
exactly one element matched and the supplied default when zero or several
matched — in every one of those cases it returns (no error is raised for
zero or for many matches). -/
theorem C7_get_returns_unique_or_default :
    ∀ (s : SearchBase) (key : String) (rhs dflt : PyVal) (path : AttrPath)
      (op : Operators) (matched : List PyVal),
      splitLhs key = .ok (path, op) →
      compareAll path rhs op true s.root = .ok matched →
      (SearchBase.get s dflt [(key, rhs)]).1 =
        .ok (if matched.length = 1 then matched.headD PyVal.none else dflt) := by
  intro s key rhs dflt path op matched h1 h2
  have hd : decodePredicate [(key, rhs)] = .ok (path, op, rhs) := by
    rw [decodePredicate_single, h1]
  have hf : s.filterCall [(key, rhs)] = (.ok ⟨matched⟩, ⟨matched⟩) := by
    simp only [SearchBase.filterCall, hd]
    rw [h2]
  simp only [SearchBase.get, hf]
  split <;> rfl

/-- Claim C7 witness: one of two elements matches, and `get` returns it. -/
theorem C7_witness :
    splitLhs "a_eq" = .ok (AttrPath.ofString "a", Operators.EQ) ∧
    compareAll (AttrPath.ofString "a") (PyVal.int 1) Operators.EQ true
      [PyVal.obj "T" [("a", PyVal.int 1)], PyVal.obj "T" [("a", PyVal.int 2)]] =
      .ok [PyVal.obj "T" [("a", PyVal.int 1)]] ∧
    (SearchBase.get
        ⟨[PyVal.obj "T" [("a", PyVal.int 1)], PyVal.obj "T" [("a", PyVal.int 2)]]⟩
        PyVal.none [("a_eq", PyVal.int 1)]).1 =
      .ok (PyVal.obj "T" [("a", PyVal.int 1)]) :=
  ⟨rfl, rfl,
   C7_get_returns_unique_or_default
     ⟨[PyVal.obj "T" [("a", PyVal.int 1)], PyVal.obj "T" [("a", PyVal.int 2)]]⟩
     "a_eq" (PyVal.int 1) PyVal.none (AttrPath.ofString "a") Operators.EQ
     [PyVal.obj "T" [("a", PyVal.int 1)]] rfl rfl⟩

/-- Claim C8 counterexample: the claim requires only that the predicate path
resolve on all elements, but resolution is not enough: on the one-element
collection below the path `a` resolves to the integer 1 on the element, yet
the operator of the key `a_contains` then evaluates `"x" in 1`, which raises
`TypeError`, so `filter` fails and the collection after filter-then-exclude
with the identical predicate still holds its element instead of being
empty. -/
theorem C8_counterexample :
    getattrPathAttr (PyVal.obj "T" [("a", PyVal.int 1)]) (AttrPath.ofString "a")
      Option.none = .ok (PyVal.int 1) ∧
    (SearchBase.filterCall ⟨[PyVal.obj "T" [("a", PyVal.int 1)]]⟩
        [("a_contains", PyVal.str "x")]).1 =
      .error (.typeError "argument of type int is not iterable") ∧
    ((SearchBase.filterCall ⟨[PyVal.obj "T" [("a", PyVal.int 1)]]⟩
        [("a_contains", PyVal.str "x")]).2.excludeCall
        [("a_contains", PyVal.str "x")]).2.root.length = 1 :=
  ⟨rfl, rfl, rfl⟩

/-- Claim C8 (amended): for a predicate key that decodes and whose predicate
evaluates without raising on every element of the collection — the path must
resolve on all of them and the operator must apply to each resolved value —
`filter` succeeds returning the collection, and the subsequent `exclude`
with the identical predicate empties it.  (Path resolution alone does not
suffice: when the operator raises on a resolved value the call fails and the
collection is left unchanged, possibly non-empty.) -/
theorem C8_filter_then_exclude_is_empty :
    ∀ (s : SearchBase) (key : String) (rhs : PyVal) (path : AttrPath)
      (op : Operators),
      splitLhs key = .ok (path, op) →
      (∀ x ∈ s.root, ∃ b, sbCompare x path rhs op = .ok b) →
      (s.filterCall [(key, rhs)]).1 = .ok (s.filterCall [(key, rhs)]).2 ∧
      (s.filterCall [(key, rhs)]).2.excludeCall [(key, rhs)] =
        (.ok ⟨[]⟩, ⟨[]⟩) := by
  intro s key rhs path op hkey hall
  obtain ⟨kept, hk⟩ := compareAll_ok_of_all path rhs op s.root hall
  have hd : decodePredicate [(key, rhs)] = .ok (path, op, rhs) := by
    rw [decodePredicate_single, hkey]
  have hf : s.filterCall [(key, rhs)] = (.ok ⟨kept⟩, ⟨kept⟩) := by
    simp only [SearchBase.filterCall, hd]
    rw [hk]
  have hkt : ∀ x ∈ kept, sbCompare x path rhs op = .ok true :=
    compareAll_kept_true path rhs op s.root kept hk
  have hex : compareAll path rhs op false kept = .ok [] :=
    compareAll_exclude_nil path rhs op kept hkt
  constructor
  · rw [hf]
  · rw [hf]
    dsimp only
    simp only [SearchBase.excludeCall, hd]
    rw [hex]

/-- Claim C8 witness: filtering a two-element collection on `a_eq` and then
excluding with the identical predicate leaves the empty collection. -/
theorem C8_witness :
    (SearchBase.filterCall
        ⟨[PyVal.obj "T" [("a", PyVal.int 1)], PyVal.obj "T" [("a", PyVal.int 2)]]⟩
        [("a_eq", PyVal.int 1)]).2.excludeCall [("a_eq", PyVal.int 1)] =
      (.ok ⟨[]⟩, ⟨[]⟩) :=
  (C8_filter_then_exclude_is_empty
    ⟨[PyVal.obj "T" [("a", PyVal.int 1)], PyVal.obj "T" [("a", PyVal.int 2)]]⟩
    "a_eq" (PyVal.int 1) (AttrPath.ofString "a") Operators.EQ rfl
    (by
      intro x hx
      simp only [List.mem_cons, List.not_mem_nil, or_false] at hx
      rcases hx with rfl | rfl
      · exact ⟨true, rfl⟩
      · exact ⟨false, rfl⟩)).2

end HomeCatalog
